import Mathlib

/-!
# Verification of the glosm `TileManager` quadtree tile cache

Shallow embedding of `src/libglosm-client/src/TileManager.cc` (glosm).
The stateful C++ code is rendered as pure Lean functions with explicit
state passing:

* `QuadNode` — one quadtree node (`bbox`, optional tile payload, four
  optional exclusively-owned children, generation stamp).
* `recLoadTiles` — the wanted-set walk (`TileManager::RecLoadTiles`,
  lines 83–140), with the queue admission step factored out as
  `admitTask` (lines 110–127).
* `recPlaceTile` — tile placement (`TileManager::RecPlaceTile`,
  lines 142–163).
* `recGarbageCollectTiles` / `garbageCollect` — generational eviction
  (lines 178–193, 350–355).
* `loadLocality` — the public wanted-set entry point (lines 326–348);
  condition-variable signalling is rendered as a returned Bool.

Functions of the repository that are *not* in `src/` (`BBoxi::ForGeoTile`,
`ApproxDistanceSquare`, headers) are modelled from the spec, as documented
at their definitions: `ForGeoTile` is a deterministic pure function of
`(level, x, y)`, and the approximate squared distance for a fixed viewer
position is an arbitrary function of the bounding box, supplied as a
parameter `dist`.

The C++ recursion `RecLoadTiles(level)` counts the level up towards
`hires_level_`; the Lean rendering recurses on `fuel = hires_level_ - level`
so that termination is structural, and recovers `level` as
`hiresLevel - fuel`.  Machine `int` coordinates are nonnegative along every
real call chain (the root is `(0,0)` and children are `2x`, `2x+1`, ...),
so coordinates are `Nat`; `TileId` keeps `Int` fields because of the
`(-1,-1,-1)` "not loading" sentinel.
-/

set_option autoImplicit false

/-- Modelled from the spec: `BBoxi::ForGeoTile(level, x, y)` (not in `src/`)
is "a deterministic pure function — no side effects, no failure modes"
computing the geo bounding box of a quadtree tile.  The claims use the box
only through the viewer's distance function, so the box is represented by
its defining arguments. -/
structure BBoxi where
  level : Nat
  x : Nat
  y : Nat
deriving DecidableEq, Repr

/-- Embedding of `BBoxi::ForGeoTile(level, x, y)` — see the doc comment of `BBoxi`. -/
def BBoxi.forGeoTile (level x y : Nat) : BBoxi := ⟨level, x, y⟩

/-- The id type `TileId { level, x, y }`; equality compares all three fields.  Fields
are `Int` because `(-1,-1,-1)` is the "not loading anything" sentinel. -/
structure TileId where
  level : Int
  x : Int
  y : Int
deriving DecidableEq, Repr

/-- Build `TileId(level, x, y)` from the walk's `Nat` coordinates. -/
def TileId.ofNat (level x y : Nat) : TileId := ⟨level, x, y⟩

/-- The `loading_` sentinel `TileId(-1, -1, -1)` ("not loading anything"). -/
def TileId.sentinel : TileId := ⟨-1, -1, -1⟩

/-- Tile payloads are opaque to `TileManager.cc` (constructed by the tile
factory, destroyed or attached by the core); a tag distinguishes them. -/
structure Tile where
  tag : Nat
deriving DecidableEq, Repr

/-- A task `TileTask { id, bbox }` — a pending load request (line 113 etc.). -/
structure TileTask where
  id : TileId
  bbox : BBoxi
deriving DecidableEq, Repr

/-- One quadtree node: `bbox`, optional owned tile payload, four optional
exclusively-owned children (`childs[0..3]`), generation stamp. -/
inductive QuadNode where
  | mk (bbox : BBoxi) (tile : Option Tile) (c0 c1 c2 c3 : Option QuadNode)
       (generation : Nat)
deriving Repr

def QuadNode.bbox : QuadNode → BBoxi
  | .mk b _ _ _ _ _ _ => b

def QuadNode.tile : QuadNode → Option Tile
  | .mk _ t _ _ _ _ _ => t

def QuadNode.generation : QuadNode → Nat
  | .mk _ _ _ _ _ _ g => g

def QuadNode.c0 : QuadNode → Option QuadNode
  | .mk _ _ a _ _ _ _ => a

def QuadNode.c1 : QuadNode → Option QuadNode
  | .mk _ _ _ a _ _ _ => a

def QuadNode.c2 : QuadNode → Option QuadNode
  | .mk _ _ _ _ a _ _ => a

def QuadNode.c3 : QuadNode → Option QuadNode
  | .mk _ _ _ _ _ a _ => a

@[simp] theorem QuadNode.bbox_mk (b : BBoxi) (t : Option Tile)
    (a0 a1 a2 a3 : Option QuadNode) (g : Nat) :
    (QuadNode.mk b t a0 a1 a2 a3 g).bbox = b := rfl

@[simp] theorem QuadNode.tile_mk (b : BBoxi) (t : Option Tile)
    (a0 a1 a2 a3 : Option QuadNode) (g : Nat) :
    (QuadNode.mk b t a0 a1 a2 a3 g).tile = t := rfl

@[simp] theorem QuadNode.generation_mk (b : BBoxi) (t : Option Tile)
    (a0 a1 a2 a3 : Option QuadNode) (g : Nat) :
    (QuadNode.mk b t a0 a1 a2 a3 g).generation = g := rfl

@[simp] theorem QuadNode.c0_mk (b : BBoxi) (t : Option Tile)
    (a0 a1 a2 a3 : Option QuadNode) (g : Nat) :
    (QuadNode.mk b t a0 a1 a2 a3 g).c0 = a0 := rfl

@[simp] theorem QuadNode.c1_mk (b : BBoxi) (t : Option Tile)
    (a0 a1 a2 a3 : Option QuadNode) (g : Nat) :
    (QuadNode.mk b t a0 a1 a2 a3 g).c1 = a1 := rfl

@[simp] theorem QuadNode.c2_mk (b : BBoxi) (t : Option Tile)
    (a0 a1 a2 a3 : Option QuadNode) (g : Nat) :
    (QuadNode.mk b t a0 a1 a2 a3 g).c2 = a2 := rfl

@[simp] theorem QuadNode.c3_mk (b : BBoxi) (t : Option Tile)
    (a0 a1 a2 a3 : Option QuadNode) (g : Nat) :
    (QuadNode.mk b t a0 a1 a2 a3 g).c3 = a3 := rfl

/-- Child slot `childs[i]` (indices 0..3; larger indices never occur in the code). -/
def QuadNode.childAt (n : QuadNode) : Nat → Option QuadNode
  | 0 => n.c0
  | 1 => n.c1
  | 2 => n.c2
  | _ => n.c3

/-- Assignment `node->generation = g` as a functional update. -/
def QuadNode.withGeneration : QuadNode → Nat → QuadNode
  | .mk b t a0 a1 a2 a3 _, g => .mk b t a0 a1 a2 a3 g

/-- Assignment `node->tile = t` as a functional update. -/
def QuadNode.withTile : QuadNode → Option Tile → QuadNode
  | .mk b _ a0 a1 a2 a3 g, t => .mk b t a0 a1 a2 a3 g

/-- Replace all four child slots. -/
def QuadNode.withChildren : QuadNode → Option QuadNode → Option QuadNode →
    Option QuadNode → Option QuadNode → QuadNode
  | .mk b t _ _ _ _ g, a0, a1, a2, a3 => .mk b t a0 a1 a2 a3 g

/-- Assignment `childs[i] = c` as a functional update. -/
def QuadNode.withChildAt (n : QuadNode) : Nat → Option QuadNode → QuadNode
  | 0, c => n.withChildren c n.c1 n.c2 n.c3
  | 1, c => n.withChildren n.c0 c n.c2 n.c3
  | 2, c => n.withChildren n.c0 n.c1 c n.c3
  | _, c => n.withChildren n.c0 n.c1 n.c2 c

/-- The node's fields other than the child slots. -/
def QuadNode.core (n : QuadNode) : BBoxi × Option Tile × Nat :=
  (n.bbox, n.tile, n.generation)

/-- The values `RecLoadTiles` reads but never writes during one walk:
the per-viewer distance function (see `WalkEnv.dist`), the `hires_level_`
and `hires_range_ * hires_range_` configuration, the manager's current
`generation_`, and the `loading_` tile id. -/
structure WalkEnv where
  /-- Modelled from the spec: `ApproxDistanceSquare(bbox,
  info.viewer_pos.Flattened())` (not in `src/`) — "an approximate squared
  distance from the viewer's flattened (2D) position to that box".  For a
  fixed viewer position it is a pure function of the box, used by the code
  only in comparisons, so it is supplied as an arbitrary `Nat`-valued
  function of the box. -/
  dist : BBoxi → Nat
  /-- Field `hires_level_` (the constructor sets 13). -/
  hiresLevel : Nat
  /-- The square `hires_range_ * hires_range_` (the constructor sets `10000.0f`,
  squared: `10^8`). -/
  hiresRangeSq : Nat
  /-- Field `generation_`. -/
  generation : Nat
  /-- Field `loading_`. -/
  loading : TileId

/-- The struct `RecLoadTilesInfo`'s mutable per-walk fields.  `closest_distance` is
only ever read after the queue has become non-empty; `LoadLocality`
constructs the struct afresh per call, rendered here with both counters
zeroed (in the C++ `closest_distance` is not read before it is first
written along any non-`SYNC` path, since the queue was just cleared). -/
structure RecLoadTilesInfo where
  closest_distance : Nat
  queue_size : Nat
deriving DecidableEq, Repr

/-- Result of a (sub)walk: the updated subtree (`*pnode` after the call),
the updated queue, and the updated `info`. -/
structure WalkResult where
  node : Option QuadNode
  queue : List TileTask
  info : RecLoadTilesInfo

/-- Queue admission, `TileManager::RecLoadTiles` lines 111–126:
empty queue → `push_front` and record `closest_distance`; strictly closer
than `closest_distance` → `push_front` and update it; otherwise
`push_back` only while fewer than 100 tasks were enqueued this walk;
otherwise drop. -/
def admitTask (task : TileTask) (thisdist : Nat) (q : List TileTask)
    (info : RecLoadTilesInfo) : List TileTask × RecLoadTilesInfo :=
  if q.isEmpty then
    (task :: q, ⟨thisdist, info.queue_size + 1⟩)
  else if thisdist < info.closest_distance then
    (task :: q, ⟨thisdist, info.queue_size + 1⟩)
  else if info.queue_size < 100 then
    (q ++ [task], ⟨info.closest_distance, info.queue_size + 1⟩)
  else
    (q, info)

/-- Lines 87–101 of `RecLoadTiles`: if `*pnode == NULL`, compute the geo
box and, **only if the range check passes**, create the node; if the node
exists, keep it only if its stored box passes the range check.  `none`
means the branch is pruned (the walk returns with `*pnode` unchanged). -/
def visitEntry (env : WalkEnv) (level x y : Nat) (pnode : Option QuadNode) :
    Option QuadNode :=
  match pnode with
  | none =>
    let bbox := BBoxi.forGeoTile level x y
    if env.hiresRangeSq < env.dist bbox then none
    else some (.mk bbox none none none none none 0)
  | some n =>
    if env.hiresRangeSq < env.dist n.bbox then none
    else some n

/-- Lines 106–130 of `RecLoadTiles` (the `level == hires_level_` leaf
case): a loaded tile means nothing to do; otherwise, unless this exact
`TileId` is the one currently loading, run the admission step.
`thisdist` is recomputed as `env.dist node.bbox`, the same value the
entry step computed (the box is unchanged by the generation stamp). -/
def leafStep (env : WalkEnv) (level x y : Nat) (node : QuadNode)
    (q : List TileTask) (info : RecLoadTilesInfo) : WalkResult :=
  if node.tile.isSome then ⟨some node, q, info⟩
  else if TileId.ofNat level x y = env.loading then ⟨some node, q, info⟩
  else
    let r := admitTask ⟨TileId.ofNat level x y, node.bbox⟩
      (env.dist node.bbox) q info
    ⟨some node, r.1, r.2⟩

/-- Embedding of `TileManager::RecLoadTiles` (lines 83–140).  `fuel` is
`hires_level_ - level`; the recursion into the four child quadrants
`(2x,2y), (2x+1,2y), (2x,2y+1), (2x+1,2y+1)` is on `fuel - 1`. -/
def recLoadTiles (env : WalkEnv) (fuel x y : Nat) (pnode : Option QuadNode)
    (q : List TileTask) (info : RecLoadTilesInfo) : WalkResult :=
  let level := env.hiresLevel - fuel
  match visitEntry env level x y pnode with
  | none => ⟨pnode, q, info⟩
  | some n0 =>
    -- range check passed and node exists: `node->generation = generation_`
    let node := n0.withGeneration env.generation
    match fuel with
    | 0 => leafStep env level x y node q info
    | f + 1 =>
      let r0 := recLoadTiles env f (2 * x) (2 * y) node.c0 q info
      let r1 := recLoadTiles env f (2 * x + 1) (2 * y) node.c1 r0.queue r0.info
      let r2 := recLoadTiles env f (2 * x) (2 * y + 1) node.c2 r1.queue r1.info
      let r3 := recLoadTiles env f (2 * x + 1) (2 * y + 1) node.c3 r2.queue r2.info
      ⟨some (node.withChildren r0.node r1.node r2.node r3.node),
        r3.queue, r3.info⟩

/-- The worker's dequeue step (lines 270–271): take the front task. -/
def popFront : List TileTask → Option (TileTask × List TileTask)
  | [] => none
  | t :: ts => some (t, ts)

/-- Child index of `RecPlaceTile` (lines 159–160):
`mask = 1 << (level-1)`, `nchild = (!!(y & mask) << 1) | !!(x & mask)`. -/
def childIndex (level x y : Nat) : Nat :=
  let mask := 1 <<< (level - 1)
  2 * (if y &&& mask ≠ 0 then 1 else 0) + (if x &&& mask ≠ 0 then 1 else 0)

/-- Embedding of `TileManager::RecPlaceTile` (lines 142–163): descend `level` steps by
quadrant bits; an absent node on the way drops the tile (subtree
unchanged); at `level == 0` a present tile is kept (the new one dropped),
otherwise the tile is attached. -/
def recPlaceTile : Option QuadNode → Tile → Nat → Nat → Nat → Option QuadNode
  | none, _, _, _, _ => none
  | some n, tile, 0, _, _ =>
    if n.tile.isSome then some n else some (n.withTile (some tile))
  | some n, tile, l + 1, x, y =>
    let i := childIndex (l + 1) x y
    some (n.withChildAt i (recPlaceTile (n.childAt i) tile l x y))

/-- The node `RecPlaceTile(…, level, x, y)` targets: follow `childIndex`
for `level` steps (the node reached when `level == 0`). -/
def placeTarget : Option QuadNode → Nat → Nat → Nat → Option QuadNode
  | none, _, _, _ => none
  | some n, 0, _, _ => some n
  | some n, l + 1, x, y => placeTarget (n.childAt (childIndex (l + 1) x y)) l x y

/-- Embedding of `TileManager::RecGarbageCollectTiles` (lines 178–193): for each child,
a stale generation stamp destroys the whole child subtree and clears the
slot; a current stamp recurses.  The given node's own stamp is never
inspected. -/
def recGarbageCollectTiles (gen : Nat) : QuadNode → QuadNode
  | .mk b t a0 a1 a2 a3 g =>
    .mk b t
      (match a0 with
       | none => none
       | some n => if n.generation = gen then some (recGarbageCollectTiles gen n) else none)
      (match a1 with
       | none => none
       | some n => if n.generation = gen then some (recGarbageCollectTiles gen n) else none)
      (match a2 with
       | none => none
       | some n => if n.generation = gen then some (recGarbageCollectTiles gen n) else none)
      (match a3 with
       | none => none
       | some n => if n.generation = gen then some (recGarbageCollectTiles gen n) else none)
      g

/-- The manager state the claims exercise: the always-present root node
(`root_` is a by-value member), the pending queue, `generation_`,
`loading_`, and the hires configuration knobs (members set by the
constructor to 13 and `10000.0f²`). -/
structure TileManager where
  root : QuadNode
  queue : List TileTask
  generation : Nat
  loading : TileId
  hiresLevel : Nat
  hiresRangeSq : Nat

/-- The read-only walk environment for one `LoadLocality(viewer)` call. -/
def TileManager.walkEnv (tm : TileManager) (dist : BBoxi → Nat) : WalkEnv :=
  ⟨dist, tm.hiresLevel, tm.hiresRangeSq, tm.generation, tm.loading⟩

/-- Embedding of `TileManager::LoadLocality` (lines 326–348).  Without `SYNC` the
pending queue is cleared before the walk; with `SYNC` it is kept.  The
walk runs from the root (`level = 0`, so `fuel = hires_level_`) with a
fresh `RecLoadTilesInfo`.  The returned Bool models the
`pthread_cond_signal` call: fired only without `SYNC` and only when the
queue is non-empty after the walk. -/
def loadLocality (tm : TileManager) (dist : BBoxi → Nat) (sync : Bool) :
    TileManager × Bool :=
  let q0 := if sync then tm.queue else []
  let r := recLoadTiles (tm.walkEnv dist) tm.hiresLevel 0 0 (some tm.root)
    q0 ⟨0, 0⟩
  ({ tm with root := r.node.getD tm.root, queue := r.queue },
    !sync && !r.queue.isEmpty)

/-- Embedding of `TileManager::GarbageCollect` (lines 350–355): sweep from the root,
then increment `generation_`. -/
def garbageCollect (tm : TileManager) : TileManager :=
  { tm with root := recGarbageCollectTiles tm.generation tm.root,
            generation := tm.generation + 1 }

/-- The state after `n` further non-`SYNC` `LoadLocality` calls with a
fixed viewer position. -/
def locSeq (tm : TileManager) (dist : BBoxi → Nat) : Nat → TileManager
  | 0 => tm
  | n + 1 => (loadLocality (locSeq tm dist n) dist false).1

/-- Child of a possibly-absent node (children of an absent node are
absent). -/
def childOpt (node : Option QuadNode) (i : Nat) : Option QuadNode :=
  node.bind (fun n => n.childAt i)

/-- Node lookup along a list of child indices. -/
def lookupPath : List Nat → Option QuadNode → Option QuadNode
  | [], t => t
  | i :: p, t => lookupPath p (childOpt t i)

/-- The spec's eligible wanted set (spec §8, first testable property,
read with §4.3's pruning rule): leaf `TileId`s at `hires_level_` every
node of whose ancestor chain — the leaf included — lies within
`hiresRange` of the viewer, whose node does not already hold a tile
payload (an absent node holds none), and which are not the id currently
recorded as loading.  Defined from the spec's words, independently of
`recLoadTiles`, for the refinement comparison. -/
def specEligibleIds (env : WalkEnv) (fuel x y : Nat)
    (node : Option QuadNode) : List TileId :=
  let level := env.hiresLevel - fuel
  if env.hiresRangeSq < env.dist (BBoxi.forGeoTile level x y) then []
  else
    match fuel with
    | 0 =>
      if (node.bind QuadNode.tile).isSome then []
      else if TileId.ofNat level x y = env.loading then []
      else [TileId.ofNat level x y]
    | f + 1 =>
      specEligibleIds env f (2 * x) (2 * y) (childOpt node 0) ++
      specEligibleIds env f (2 * x + 1) (2 * y) (childOpt node 1) ++
      specEligibleIds env f (2 * x) (2 * y + 1) (childOpt node 2) ++
      specEligibleIds env f (2 * x + 1) (2 * y + 1) (childOpt node 3)

/-- Well-formedness of a (sub)tree rooted at quadrant position
`(hiresLevel - fuel, x, y)`: every present node stores the geo box of its
own position.  This is the invariant the walk itself establishes (a
created node's box is `ForGeoTile` of its position). -/
def wfAt (hl : Nat) (fuel x y : Nat) : Option QuadNode → Bool
  | none => true
  | some n =>
    decide (n.bbox = BBoxi.forGeoTile (hl - fuel) x y) &&
    match fuel with
    | 0 => true
    | f + 1 =>
      wfAt hl f (2 * x) (2 * y) n.c0 &&
      wfAt hl f (2 * x + 1) (2 * y) n.c1 &&
      wfAt hl f (2 * x) (2 * y + 1) n.c2 &&
      wfAt hl f (2 * x + 1) (2 * y + 1) n.c3

/-- Well-formedness of a manager's whole tree. -/
def TileManager.wf (tm : TileManager) : Bool :=
  wfAt tm.hiresLevel tm.hiresLevel 0 0 (some tm.root)

/-- The `TileId`s a single non-`SYNC` `LoadLocality(viewer)` call leaves
on the (previously cleared) pending queue. -/
def TileManager.enqueuedIds (tm : TileManager) (dist : BBoxi → Nat) :
    List TileId :=
  ((loadLocality tm dist false).1.queue).map TileTask.id

/-- The spec's eligible wanted set for the manager's current state. -/
def TileManager.eligibleIds (tm : TileManager) (dist : BBoxi → Nat) :
    List TileId :=
  specEligibleIds (tm.walkEnv dist) tm.hiresLevel 0 0 (some tm.root)

/-- The wanted-set walk's quadrant refinement (lines 134–137): child `i`
of `(x, y)` is `(2x + (i & 1), 2y + (i >> 1))`, i.e. the four recursive
calls `(2x,2y), (2x+1,2y), (2x,2y+1), (2x+1,2y+1)` for `i = 0,1,2,3`. -/
def refineStep (xy : Nat × Nat) (i : Nat) : Nat × Nat :=
  (2 * xy.1 + i % 2, 2 * xy.2 + i / 2)

/-- Retrace a child-index path by the walk's refinement rule, starting
from coordinates `(x0, y0)`. -/
def retrace (x0 y0 : Nat) (p : List Nat) : Nat × Nat :=
  p.foldl refineStep (x0, y0)

/-- The descent path `RecPlaceTile(…, level, x, y)` takes: at each
remaining level the child of index `childIndex` for mask
`1 << (level-1)`. -/
def placePath : Nat → Nat → Nat → List Nat
  | 0, _, _ => []
  | l + 1, x, y => childIndex (l + 1) x y :: placePath l x y

/-! ## Basic structural lemmas -/

@[simp] theorem QuadNode.bbox_withGeneration (n : QuadNode) (g : Nat) :
    (n.withGeneration g).bbox = n.bbox := by
  cases n; rfl

@[simp] theorem QuadNode.tile_withGeneration (n : QuadNode) (g : Nat) :
    (n.withGeneration g).tile = n.tile := by
  cases n; rfl

@[simp] theorem QuadNode.generation_withGeneration (n : QuadNode) (g : Nat) :
    (n.withGeneration g).generation = g := by
  cases n; rfl

@[simp] theorem QuadNode.c0_withGeneration (n : QuadNode) (g : Nat) :
    (n.withGeneration g).c0 = n.c0 := by
  cases n; rfl

@[simp] theorem QuadNode.c1_withGeneration (n : QuadNode) (g : Nat) :
    (n.withGeneration g).c1 = n.c1 := by
  cases n; rfl

@[simp] theorem QuadNode.c2_withGeneration (n : QuadNode) (g : Nat) :
    (n.withGeneration g).c2 = n.c2 := by
  cases n; rfl

@[simp] theorem QuadNode.c3_withGeneration (n : QuadNode) (g : Nat) :
    (n.withGeneration g).c3 = n.c3 := by
  cases n; rfl

@[simp] theorem QuadNode.childAt_withGeneration (n : QuadNode) (g i : Nat) :
    (n.withGeneration g).childAt i = n.childAt i := by
  cases n with
  | mk b t a0 a1 a2 a3 g0 =>
    rcases i with _ | _ | _ | i <;> rfl

@[simp] theorem QuadNode.bbox_withChildren (n : QuadNode)
    (a0 a1 a2 a3 : Option QuadNode) :
    (n.withChildren a0 a1 a2 a3).bbox = n.bbox := by
  cases n; rfl

@[simp] theorem QuadNode.tile_withChildren (n : QuadNode)
    (a0 a1 a2 a3 : Option QuadNode) :
    (n.withChildren a0 a1 a2 a3).tile = n.tile := by
  cases n; rfl

@[simp] theorem QuadNode.generation_withChildren (n : QuadNode)
    (a0 a1 a2 a3 : Option QuadNode) :
    (n.withChildren a0 a1 a2 a3).generation = n.generation := by
  cases n; rfl

@[simp] theorem QuadNode.c0_withChildren (n : QuadNode)
    (a0 a1 a2 a3 : Option QuadNode) :
    (n.withChildren a0 a1 a2 a3).c0 = a0 := by
  cases n; rfl

@[simp] theorem QuadNode.c1_withChildren (n : QuadNode)
    (a0 a1 a2 a3 : Option QuadNode) :
    (n.withChildren a0 a1 a2 a3).c1 = a1 := by
  cases n; rfl

@[simp] theorem QuadNode.c2_withChildren (n : QuadNode)
    (a0 a1 a2 a3 : Option QuadNode) :
    (n.withChildren a0 a1 a2 a3).c2 = a2 := by
  cases n; rfl

@[simp] theorem QuadNode.c3_withChildren (n : QuadNode)
    (a0 a1 a2 a3 : Option QuadNode) :
    (n.withChildren a0 a1 a2 a3).c3 = a3 := by
  cases n; rfl

@[simp] theorem QuadNode.tile_withTile (n : QuadNode) (t : Option Tile) :
    (n.withTile t).tile = t := by
  cases n; rfl

theorem QuadNode.withChildAt_self (n : QuadNode) (i : Nat) :
    n.withChildAt i (n.childAt i) = n := by
  cases n with
  | mk b t a0 a1 a2 a3 g =>
    rcases i with _ | _ | _ | i <;> rfl

theorem QuadNode.childAt_withChildAt_self (n : QuadNode) (i : Nat)
    (c : Option QuadNode) : (n.withChildAt i c).childAt i = c := by
  cases n with
  | mk b t a0 a1 a2 a3 g =>
    rcases i with _ | _ | _ | i <;> rfl

@[simp] theorem lookupPath_none (p : List Nat) : lookupPath p none = none := by
  induction p with
  | nil => rfl
  | cons i p ih => simpa [lookupPath, childOpt] using ih

@[simp] theorem leafStep_node (env : WalkEnv) (level x y : Nat)
    (node : QuadNode) (q : List TileTask) (info : RecLoadTilesInfo) :
    (leafStep env level x y node q info).node = some node := by
  unfold leafStep
  split
  · rfl
  · split <;> rfl

/-! ## Garbage collection lemmas (claims C2, C9) -/

theorem recGarbageCollectTiles_core (gen : Nat) (n : QuadNode) :
    (recGarbageCollectTiles gen n).core = n.core := by
  cases n
  rw [recGarbageCollectTiles.eq_def]
  rfl

theorem recGarbageCollectTiles_generation (gen : Nat) (n : QuadNode) :
    (recGarbageCollectTiles gen n).generation = n.generation := by
  cases n
  rw [recGarbageCollectTiles.eq_def]
  rfl

/-- The sweep decides each child slot from the child's own stamp: a stale
stamp clears the slot, a current one recurses. -/
theorem recGarbageCollectTiles_childAt (gen : Nat) (n : QuadNode) (i : Nat) :
    (recGarbageCollectTiles gen n).childAt i =
      match n.childAt i with
      | none => none
      | some c =>
        if c.generation = gen then some (recGarbageCollectTiles gen c)
        else none := by
  cases n with
  | mk b t a0 a1 a2 a3 g =>
    rw [recGarbageCollectTiles.eq_def]
    rcases i with _ | _ | _ | i <;> rfl

/-- Every child slot the sweep keeps holds a node stamped with the swept
generation. -/
theorem recGarbageCollectTiles_child_stamped (gen : Nat) (n : QuadNode)
    (i : Nat) (c : QuadNode)
    (h : (recGarbageCollectTiles gen n).childAt i = some c) :
    c.generation = gen := by
  rw [recGarbageCollectTiles_childAt] at h
  split at h
  · simp at h
  · split at h
    · cases h
      rw [recGarbageCollectTiles_generation]
      assumption
    · simp at h

/-- C9: `GarbageCollect` never destroys or clears the root node: the sweep
inspects only the generation stamps of a node's *children*, never the
given node's own stamp, so the root — `root_`, a by-value member that is
always passed to `RecGarbageCollectTiles` — survives every collection pass
with its bounding box, its tile payload and its own (possibly stale)
generation stamp intact; only its child slots can change. -/
theorem c9_gc_never_touches_root (tm : TileManager) :
    ((garbageCollect tm).root).core = tm.root.core ∧
    (garbageCollect tm).generation = tm.generation + 1 := by
  constructor
  · exact recGarbageCollectTiles_core tm.generation tm.root
  · rfl

/-- Concrete manager for the C2 counterexample: the root owns one child
stamped with the current generation 0. -/
def tmC2 : TileManager :=
  { root := .mk (BBoxi.forGeoTile 0 0 0) none
      (some (.mk (BBoxi.forGeoTile 1 0 0) none none none none none 0))
      none none none 0,
    queue := [], generation := 0, loading := TileId.sentinel,
    hiresLevel := 1, hiresRangeSq := 0 }

/-- C2 counterexample: the claim says a second `GarbageCollect` with no
intervening `LoadLocality` "destroys no node and clears no child slot".
On `tmC2` the child survives the first collection (its stamp 0 equals the
swept generation 0), but the first call increments `generation_` to 1, so
the second call finds the stamp stale and destroys the child, clearing the
root's child slot. -/
theorem c2_counterexample :
    ((garbageCollect tmC2).root.c0).isSome = true ∧
    ((garbageCollect (garbageCollect tmC2)).root.c0).isSome = false := by
  constructor <;> rfl

/-- C2 amended: a second `GarbageCollect` with no intervening
`LoadLocality` is *not* a no-op; it is a full sweep of the surviving tree:
every node that survived the first call is stamped with the pre-increment
generation, which no longer equals the incremented counter, so the second
call destroys every child of the root and clears all four child slots
(the root itself always survives).  The second call leaves the tree shape
unchanged only in the degenerate case where the first call already left
the root childless. -/
theorem c2_second_gc_clears_all_children (tm : TileManager) (i : Nat) :
    ((garbageCollect (garbageCollect tm)).root).childAt i = none := by
  show (recGarbageCollectTiles (tm.generation + 1)
      (recGarbageCollectTiles tm.generation tm.root)).childAt i = none
  rw [recGarbageCollectTiles_childAt]
  rcases hc : (recGarbageCollectTiles tm.generation tm.root).childAt i with _ | c
  · rfl
  · have hst := recGarbageCollectTiles_child_stamped tm.generation tm.root i c hc
    have : ¬ c.generation = tm.generation + 1 := by omega
    simp [this]

/-! ## Walk unfolding lemmas -/

/-- A failed range check returns with `*pnode` (hence the tree), the
queue and the info unchanged — lines 91–92 and 99–100. -/
theorem recLoadTiles_pruned (env : WalkEnv) (fuel x y : Nat)
    (pnode : Option QuadNode) (q : List TileTask) (info : RecLoadTilesInfo)
    (hE : visitEntry env (env.hiresLevel - fuel) x y pnode = none) :
    recLoadTiles env fuel x y pnode q info = ⟨pnode, q, info⟩ := by
  rw [recLoadTiles.eq_def]
  simp only [hE]

/-- Unfolding at the leaf level (`fuel = 0`, i.e. `level == hires_level_`). -/
theorem recLoadTiles_zero (env : WalkEnv) (x y : Nat) (n0 : QuadNode)
    (pnode : Option QuadNode) (q : List TileTask) (info : RecLoadTilesInfo)
    (hE : visitEntry env env.hiresLevel x y pnode = some n0) :
    recLoadTiles env 0 x y pnode q info =
      leafStep env env.hiresLevel x y (n0.withGeneration env.generation)
        q info := by
  rw [recLoadTiles.eq_def]
  simp only [Nat.sub_zero, hE]

/-- Unfolding at an intermediate level: recurse into the four quadrants. -/
theorem recLoadTiles_succ (env : WalkEnv) (f x y : Nat) (n0 : QuadNode)
    (pnode : Option QuadNode) (q : List TileTask) (info : RecLoadTilesInfo)
    (hE : visitEntry env (env.hiresLevel - (f + 1)) x y pnode = some n0) :
    recLoadTiles env (f + 1) x y pnode q info =
      (let node := n0.withGeneration env.generation
       let r0 := recLoadTiles env f (2 * x) (2 * y) node.c0 q info
       let r1 := recLoadTiles env f (2 * x + 1) (2 * y) node.c1 r0.queue r0.info
       let r2 := recLoadTiles env f (2 * x) (2 * y + 1) node.c2 r1.queue r1.info
       let r3 := recLoadTiles env f (2 * x + 1) (2 * y + 1) node.c3 r2.queue r2.info
       ⟨some (node.withChildren r0.node r1.node r2.node r3.node),
         r3.queue, r3.info⟩) := by
  rw [recLoadTiles.eq_def]
  simp only [hE]

/-! ## C3: pruning an absent position -/

/-- A walk environment in which everything is out of range:
`hires_range_² = 4` but every box is at squared distance 5. -/
def envPrune : WalkEnv :=
  ⟨fun _ => 5, 0, 4, 0, TileId.sentinel⟩

/-- C3 counterexample.  The claim (with spec §4.3, which creates the node
*before* the range check) says that at a visited position with no node and
out-of-range distance the freshly created node "still exists afterwards
(unmarked for this generation, remaining for later garbage collection)".
In the code the range check at lines 91–92 happens *before*
`new QuadNode` at line 93, so the visit creates nothing: afterwards the
position still holds no node at all — there is no unmarked fresh node for
later garbage collection to find. -/
theorem c3_counterexample :
    (recLoadTiles envPrune 0 0 0 none [] ⟨0, 0⟩).node = none := by
  rfl

/-- C3 amended: when a visited position has no node and its approximate
squared distance to the viewer exceeds `hiresRange²`, the walk returns
*before creating any node*: the branch is pruned (no recursion, no queue
or info change) and the position still holds no node afterwards — nothing
unmarked is left behind for later garbage collection. -/
theorem c3_prune_absent_creates_nothing (env : WalkEnv) (fuel x y : Nat)
    (q : List TileTask) (info : RecLoadTilesInfo)
    (h : env.hiresRangeSq <
      env.dist (BBoxi.forGeoTile (env.hiresLevel - fuel) x y)) :
    recLoadTiles env fuel x y none q info = ⟨none, q, info⟩ := by
  apply recLoadTiles_pruned
  unfold visitEntry
  rw [if_pos h]

/-- Witness for C3: `envPrune` at the root position, distance 5 > range 4. -/
theorem c3_prune_absent_creates_nothing_witness :
    envPrune.hiresRangeSq <
      envPrune.dist (BBoxi.forGeoTile (envPrune.hiresLevel - 0) 0 0) ∧
    recLoadTiles envPrune 0 0 0 none [⟨⟨0, 0, 0⟩, ⟨0, 0, 0⟩⟩] ⟨3, 7⟩ =
      ⟨none, [⟨⟨0, 0, 0⟩, ⟨0, 0, 0⟩⟩], ⟨3, 7⟩⟩ :=
  ⟨by decide,
    c3_prune_absent_creates_nothing envPrune 0 0 0
      [⟨⟨0, 0, 0⟩, ⟨0, 0, 0⟩⟩] ⟨3, 7⟩ (by decide)⟩

/-! ## C5: admission order for two candidates -/

/-- Viewer distances for the C5 scenario: candidate A's box `(2,0,0)` is
at squared distance 10, candidate B's box `(2,1,0)` at 50, their ancestors
`(l,0,0)` at 0, every other box far out of range. -/
def distC5 : BBoxi → Nat := fun b =>
  if b = ⟨2, 0, 0⟩ then 10
  else if b = ⟨2, 1, 0⟩ then 50
  else if b.x = 0 ∧ b.y = 0 then 0
  else 1000000000

/-- A fresh manager whose hires leaves are at level 2 (the constructor's
own knobs set level 13; the scenario only needs a shallower tree). -/
def tmC5 : TileManager :=
  { root := .mk (BBoxi.forGeoTile 0 0 0) none none none none none 0,
    queue := [], generation := 7, loading := TileId.sentinel,
    hiresLevel := 2, hiresRangeSq := 100000000 }

/-- Candidate A: leaf `(2,0,0)`, squared distance 10. -/
def taskA : TileTask := ⟨⟨2, 0, 0⟩, ⟨2, 0, 0⟩⟩

/-- Candidate B: leaf `(2,1,0)`, squared distance 50. -/
def taskB : TileTask := ⟨⟨2, 1, 0⟩, ⟨2, 1, 0⟩⟩

/-- C5: in a single wanted-set walk starting from an empty queue, the
first candidate A (distance 10) is pushed to the front of the empty queue
and its distance is recorded as `closest_distance`; the later candidate B
(distance 50, not strictly closer than the recorded 10) is pushed to the
back; the final queue is `[A, B]`, `closest_distance` is 10, and the
worker's `pop_front` yields A before B. -/
theorem c5_admission_order :
    (loadLocality tmC5 distC5 false).1.queue = [taskA, taskB] ∧
    (recLoadTiles (tmC5.walkEnv distC5) 2 0 0 (some tmC5.root) []
        ⟨0, 0⟩).info.closest_distance = 10 ∧
    popFront [taskA, taskB] = some (taskA, [taskB]) ∧
    popFront [taskB] = some (taskB, []) := by
  refine ⟨?_, ?_, rfl, rfl⟩ <;> rfl

/-! ## C6: the 100-task cap on back-of-queue admission -/

/-- C6: within one walk, a non-closer candidate (queue non-empty, distance
not strictly below the recorded closest) is appended at the back only
while `queue_size` — the number of tasks enqueued so far in this walk — is
below 100; once it reaches 100 the candidate is silently dropped (queue
and info unchanged); and a strictly closer candidate is pushed to the
front unconditionally, with no cap. -/
theorem c6_admission_cap (t : TileTask) (d : Nat) (q : List TileTask)
    (info : RecLoadTilesInfo) :
    (q ≠ [] → ¬ d < info.closest_distance → info.queue_size < 100 →
      admitTask t d q info =
        (q ++ [t], ⟨info.closest_distance, info.queue_size + 1⟩)) ∧
    (q ≠ [] → ¬ d < info.closest_distance → 100 ≤ info.queue_size →
      admitTask t d q info = (q, info)) ∧
    (q ≠ [] → d < info.closest_distance →
      admitTask t d q info = (t :: q, ⟨d, info.queue_size + 1⟩)) := by
  have hne : ∀ (h : q ≠ []), q.isEmpty = false := by
    intro h
    cases q with
    | nil => exact absurd rfl h
    | cons a as => rfl
  refine ⟨fun h1 h2 h3 => ?_, fun h1 h2 h3 => ?_, fun h1 h2 => ?_⟩ <;>
    unfold admitTask <;> rw [hne h1]
  · simp only [Bool.false_eq_true, if_false, if_neg h2, if_pos h3]
  · simp only [Bool.false_eq_true, if_false, if_neg h2, if_neg (by omega : ¬ info.queue_size < 100)]
  · simp only [Bool.false_eq_true, if_false, if_pos h2]

/-- Witness for C6: all three admission branches at concrete inputs —
below the cap a non-closer task is appended, at the cap it is dropped,
and at the cap a strictly closer task is still pushed to the front. -/
theorem c6_admission_cap_witness :
    admitTask taskB 50 [taskA] ⟨10, 50⟩ = ([taskA, taskB], ⟨10, 51⟩) ∧
    admitTask taskB 50 [taskA] ⟨10, 100⟩ = ([taskA], ⟨10, 100⟩) ∧
    admitTask taskB 5 [taskA] ⟨10, 100⟩ = ([taskB, taskA], ⟨5, 101⟩) :=
  ⟨(c6_admission_cap taskB 50 [taskA] ⟨10, 50⟩).1
      (by decide) (by decide) (by decide),
   (c6_admission_cap taskB 50 [taskA] ⟨10, 100⟩).2.1
      (by decide) (by decide) (by decide),
   (c6_admission_cap taskB 5 [taskA] ⟨10, 100⟩).2.2
      (by decide) (by decide)⟩

/-! ## C7: SYNC flag — clearing and signalling -/

/-- The admission step only adds to the queue: the result is the input
queue with (possibly empty) new front and back segments. -/
theorem admitTask_shape (t : TileTask) (d : Nat) (q : List TileTask)
    (info : RecLoadTilesInfo) :
    ∃ f b, (admitTask t d q info).1 = f ++ q ++ b := by
  unfold admitTask
  split
  · exact ⟨[t], [], by simp⟩
  · split
    · exact ⟨[t], [], by simp⟩
    · split
      · exact ⟨[], [t], by simp⟩
      · exact ⟨[], [], by simp⟩

/-- A whole walk only adds to the queue: every task already pending when
the walk starts is still in the queue when it ends, in order, with new
front pushes before it and new back pushes after it. -/
theorem recLoadTiles_queue_shape (env : WalkEnv) :
    ∀ (fuel x y : Nat) (pnode : Option QuadNode) (q : List TileTask)
      (info : RecLoadTilesInfo),
    ∃ f b, (recLoadTiles env fuel x y pnode q info).queue = f ++ q ++ b := by
  intro fuel
  induction fuel with
  | zero =>
    intro x y pnode q info
    cases hE : visitEntry env (env.hiresLevel - 0) x y pnode with
    | none =>
      rw [recLoadTiles_pruned env 0 x y pnode q info hE]
      exact ⟨[], [], by simp⟩
    | some n0 =>
      rw [recLoadTiles_zero env x y n0 pnode q info hE]
      unfold leafStep
      split
      · exact ⟨[], [], by simp⟩
      · split
        · exact ⟨[], [], by simp⟩
        · exact admitTask_shape _ _ _ _
  | succ f ih =>
    intro x y pnode q info
    cases hE : visitEntry env (env.hiresLevel - (f + 1)) x y pnode with
    | none =>
      rw [recLoadTiles_pruned env (f + 1) x y pnode q info hE]
      exact ⟨[], [], by simp⟩
    | some n0 =>
      rw [recLoadTiles_succ env f x y n0 pnode q info hE]
      simp only
      obtain ⟨f0, b0, h0⟩ := ih (2 * x) (2 * y)
        ((n0.withGeneration env.generation).c0) q info
      rw [h0]
      obtain ⟨f1, b1, h1⟩ := ih (2 * x + 1) (2 * y)
        ((n0.withGeneration env.generation).c1) (f0 ++ q ++ b0) _
      rw [h1]
      obtain ⟨f2, b2, h2⟩ := ih (2 * x) (2 * y + 1)
        ((n0.withGeneration env.generation).c2) (f1 ++ (f0 ++ q ++ b0) ++ b1) _
      rw [h2]
      obtain ⟨f3, b3, h3⟩ := ih (2 * x + 1) (2 * y + 1)
        ((n0.withGeneration env.generation).c3)
        (f2 ++ (f1 ++ (f0 ++ q ++ b0) ++ b1) ++ b2) _
      rw [h3]
      exact ⟨f3 ++ f2 ++ f1 ++ f0, b0 ++ b1 ++ b2 ++ b3, by simp⟩

/-- C7: `LoadLocality` without `SYNC` clears the pending queue before the
walk — the resulting queue is what the walk produces from an empty queue,
independent of what was pending — and signals the queue's condition
variable exactly when the queue is non-empty after the walk.  With `SYNC`
neither happens: no signal is raised and every previously pending task is
still in the queue (the walk only added around it). -/
theorem c7_sync_flag (tm : TileManager) (dist : BBoxi → Nat) :
    ((loadLocality tm dist false).1.queue =
      (loadLocality { tm with queue := [] } dist false).1.queue) ∧
    ((loadLocality tm dist false).2 =
      !((loadLocality tm dist false).1.queue).isEmpty) ∧
    ((loadLocality tm dist true).2 = false) ∧
    (∃ f b, (loadLocality tm dist true).1.queue = f ++ tm.queue ++ b) := by
  refine ⟨rfl, rfl, rfl, ?_⟩
  exact recLoadTiles_queue_shape (tm.walkEnv dist) tm.hiresLevel 0 0
    (some tm.root) tm.queue ⟨0, 0⟩

/-! ## C4: placement semantics -/

/-- If the descent hits an absent node, `RecPlaceTile` leaves the tree
completely unchanged (the produced tile is dropped, nothing is
resurrected). -/
theorem recPlaceTile_absent (tile : Tile) :
    ∀ (level x y : Nat) (node : Option QuadNode),
    placeTarget node level x y = none →
    recPlaceTile node tile level x y = node := by
  intro level
  induction level with
  | zero =>
    intro x y node h
    cases node with
    | none => rfl
    | some n => exact absurd h (by simp [placeTarget])
  | succ l ih =>
    intro x y node h
    cases node with
    | none => rfl
    | some n =>
      show some (n.withChildAt (childIndex (l + 1) x y)
        (recPlaceTile (n.childAt (childIndex (l + 1) x y)) tile l x y)) = some n
      rw [ih x y (n.childAt (childIndex (l + 1) x y)) h,
        QuadNode.withChildAt_self]

/-- If the target leaf already holds a tile, `RecPlaceTile` leaves the
tree completely unchanged (first writer wins). -/
theorem recPlaceTile_occupied (tile : Tile) :
    ∀ (level x y : Nat) (node : Option QuadNode) (m : QuadNode),
    placeTarget node level x y = some m →
    m.tile.isSome →
    recPlaceTile node tile level x y = node := by
  intro level
  induction level with
  | zero =>
    intro x y node m h hm
    cases node with
    | none => rfl
    | some n =>
      have : n = m := by
        simpa [placeTarget] using h
      subst this
      show (if n.tile.isSome then some n else some (n.withTile (some tile))) = some n
      rw [if_pos hm]
  | succ l ih =>
    intro x y node m h hm
    cases node with
    | none => rfl
    | some n =>
      show some (n.withChildAt (childIndex (l + 1) x y)
        (recPlaceTile (n.childAt (childIndex (l + 1) x y)) tile l x y)) = some n
      rw [ih x y (n.childAt (childIndex (l + 1) x y)) m h hm,
        QuadNode.withChildAt_self]

/-- If the target leaf exists and holds no tile, the produced tile is
attached there. -/
theorem recPlaceTile_attach (tile : Tile) :
    ∀ (level x y : Nat) (node : Option QuadNode) (m : QuadNode),
    placeTarget node level x y = some m →
    m.tile = none →
    placeTarget (recPlaceTile node tile level x y) level x y =
      some (m.withTile (some tile)) := by
  intro level
  induction level with
  | zero =>
    intro x y node m h hm
    cases node with
    | none => exact absurd h (by simp [placeTarget])
    | some n =>
      have : n = m := by
        simpa [placeTarget] using h
      subst this
      show placeTarget
        (if n.tile.isSome then some n else some (n.withTile (some tile))) 0 x y = _
      rw [hm]
      rfl
  | succ l ih =>
    intro x y node m h hm
    cases node with
    | none => exact absurd h (by simp [placeTarget])
    | some n =>
      show placeTarget (some (n.withChildAt (childIndex (l + 1) x y)
        (recPlaceTile (n.childAt (childIndex (l + 1) x y)) tile l x y)))
        (l + 1) x y = _
      show placeTarget ((n.withChildAt (childIndex (l + 1) x y)
        (recPlaceTile (n.childAt (childIndex (l + 1) x y)) tile l x y)).childAt
          (childIndex (l + 1) x y)) l x y = _
      rw [QuadNode.childAt_withChildAt_self]
      exact ih x y (n.childAt (childIndex (l + 1) x y)) m h hm

/-- C4: for every placement via `RecPlaceTile` at `(level, x, y)` on the
always-present root: if the target node (or any node on the descent path)
is absent, the produced tile is discarded and the tree is completely
unchanged (no node is resurrected); if the target leaf already holds a
tile, the new tile is discarded and the existing tile kept (first writer
wins); otherwise the tile is attached to the target leaf. -/
theorem c4_place_discard_or_attach (root : QuadNode) (tile : Tile)
    (level x y : Nat) :
    (placeTarget (some root) level x y = none →
      recPlaceTile (some root) tile level x y = some root) ∧
    (∀ m, placeTarget (some root) level x y = some m → m.tile.isSome →
      recPlaceTile (some root) tile level x y = some root) ∧
    (∀ m, placeTarget (some root) level x y = some m → m.tile = none →
      placeTarget (recPlaceTile (some root) tile level x y) level x y =
        some (m.withTile (some tile))) :=
  ⟨recPlaceTile_absent tile level x y (some root),
   fun m h hm => recPlaceTile_occupied tile level x y (some root) m h hm,
   fun m h hm => recPlaceTile_attach tile level x y (some root) m h hm⟩

/-- A two-level concrete tree for the C4 witness: the root has exactly one
child, at slot 0, which holds a tile. -/
def rootC4 : QuadNode :=
  .mk (BBoxi.forGeoTile 0 0 0) none
    (some (.mk (BBoxi.forGeoTile 1 0 0) (some ⟨5⟩) none none none none 0))
    none none none 0

/-- Witness for C4 — all three branches at concrete inputs: descending to
the absent child `(1,1,0)` leaves `rootC4` unchanged; the occupied child
`(1,0,0)` keeps its tile `⟨5⟩` and the tree is unchanged; placing at the
empty root itself (level 0) attaches the tile. -/
theorem c4_place_discard_or_attach_witness :
    recPlaceTile (some rootC4) ⟨9⟩ 1 1 0 = some rootC4 ∧
    recPlaceTile (some rootC4) ⟨9⟩ 1 0 0 = some rootC4 ∧
    placeTarget (recPlaceTile (some rootC4) ⟨9⟩ 0 0 0) 0 0 0 =
      some (rootC4.withTile (some ⟨9⟩)) :=
  ⟨(c4_place_discard_or_attach rootC4 ⟨9⟩ 1 1 0).1 rfl,
   (c4_place_discard_or_attach rootC4 ⟨9⟩ 1 0 0).2.1
     (.mk (BBoxi.forGeoTile 1 0 0) (some ⟨5⟩) none none none none 0)
     rfl (by decide),
   (c4_place_discard_or_attach rootC4 ⟨9⟩ 0 0 0).2.2 rootC4
     rfl (by decide)⟩

/-! ## C8: round-trip addressing -/

/-- The quadrant bit chosen by `childIndex`'s mask test is the binary
digit of the coordinate at position `l`. -/
theorem maskBit_eq_div_mod (x l : Nat) :
    (if x &&& (1 <<< l) ≠ 0 then 1 else 0) = (x / 2 ^ l) % 2 := by
  rw [Nat.shiftLeft_eq, one_mul]
  have h1 : x &&& 2 ^ l ≠ 0 ↔ x / 2 ^ l % 2 = 1 := by
    rw [Nat.and_two_pow]
    rcases h : x.testBit l with _ | _
    · rw [Nat.testBit_to_div_mod] at h
      simp at h ⊢
      omega
    · rw [Nat.testBit_to_div_mod] at h
      simp at h ⊢
      omega
  by_cases h : x / 2 ^ l % 2 = 1
  · rw [if_pos (h1.mpr h), h]
  · have h0 : x / 2 ^ l % 2 = 0 := by omega
    rw [if_neg (fun hc => h (h1.mp hc)), h0]

/-- Splitting a residue at the next binary digit. -/
theorem mod_two_pow_succ (x l : Nat) :
    x % 2 ^ (l + 1) = 2 ^ l * ((x / 2 ^ l) % 2) + x % 2 ^ l := by
  rw [pow_succ, Nat.mod_mul]
  ring

/-- Unfolding `childIndex` at level `l + 1` in terms of binary digits. -/
theorem childIndex_succ (l x y : Nat) :
    childIndex (l + 1) x y = 2 * ((y / 2 ^ l) % 2) + (x / 2 ^ l) % 2 := by
  show 2 * (if y &&& (1 <<< l) ≠ 0 then 1 else 0) +
      (if x &&& (1 <<< l) ≠ 0 then 1 else 0) = _
  rw [maskBit_eq_div_mod, maskBit_eq_div_mod]

/-- Retracing the placement descent path by the walk's quadrant
refinement recovers the low `l` binary digits of the coordinates. -/
theorem retrace_placePath (l : Nat) :
    ∀ (x y a b : Nat),
    retrace a b (placePath l x y) =
      (a * 2 ^ l + x % 2 ^ l, b * 2 ^ l + y % 2 ^ l) := by
  induction l with
  | zero =>
    intro x y a b
    simp [retrace, placePath, Nat.mod_one]
  | succ l ih =>
    intro x y a b
    show retrace a b (childIndex (l + 1) x y :: placePath l x y) = _
    have hx : (childIndex (l + 1) x y) % 2 = (x / 2 ^ l) % 2 := by
      rw [childIndex_succ]
      omega
    have hy : (childIndex (l + 1) x y) / 2 = (y / 2 ^ l) % 2 := by
      rw [childIndex_succ]
      omega
    show retrace (2 * a + (childIndex (l + 1) x y) % 2)
      (2 * b + (childIndex (l + 1) x y) / 2) (placePath l x y) = _
    rw [hx, hy, ih]
    rw [Prod.mk.injEq]
    constructor
    · rw [mod_two_pow_succ x l, pow_succ]
      ring
    · rw [mod_two_pow_succ y l, pow_succ]
      ring

/-- The placement descent path has one entry per level. -/
theorem placePath_length (l : Nat) :
    ∀ x y : Nat, (placePath l x y).length = l := by
  induction l with
  | zero => intro x y; rfl
  | succ l ih =>
    intro x y
    show (placePath l x y).length + 1 = l + 1
    rw [ih]

/-- The descent of `RecPlaceTile` visits exactly the nodes on `placePath`. -/
theorem placeTarget_eq_lookupPath (l : Nat) :
    ∀ (x y : Nat) (node : Option QuadNode),
    placeTarget node l x y = lookupPath (placePath l x y) node := by
  induction l with
  | zero =>
    intro x y node
    cases node <;> rfl
  | succ l ih =>
    intro x y node
    cases node with
    | none =>
      rw [lookupPath_none]
      rfl
    | some n =>
      show placeTarget (n.childAt (childIndex (l + 1) x y)) l x y =
        lookupPath (placePath l x y) (childOpt (some n) (childIndex (l + 1) x y))
      rw [ih]
      rfl

/-- C8: for every `(level, x, y)` with `x, y < 2^level`, the placement
descent — at each remaining level taking the child of index
`(bit(y) << 1) | bit(x)` for mask `1 << (level-1)` — has exactly `level`
steps, visits exactly the nodes `lookupPath` finds along that child-index
path, and retracing the same path from the root by the wanted-set walk's
quadrant refinement `(x,y) ↦ (2x,2y), (2x+1,2y), (2x,2y+1), (2x+1,2y+1)`
ends at exactly `(x, y)` — the placement descent and the walk's refinement
address the same node for the same `TileId`. -/
theorem c8_round_trip_addressing (level x y : Nat)
    (hx : x < 2 ^ level) (hy : y < 2 ^ level) :
    retrace 0 0 (placePath level x y) = (x, y) ∧
    (placePath level x y).length = level ∧
    (∀ node : Option QuadNode,
      placeTarget node level x y = lookupPath (placePath level x y) node) := by
  refine ⟨?_, placePath_length level x y,
    fun node => placeTarget_eq_lookupPath level x y node⟩
  rw [retrace_placePath level x y 0 0]
  rw [Nat.mod_eq_of_lt hx, Nat.mod_eq_of_lt hy]
  simp

/-- Witness for C8: the path of tile `(3, 5, 2)` — indices `[1, 2, 1]` —
retraces to `(5, 2)`. -/
theorem c8_round_trip_addressing_witness :
    retrace 0 0 (placePath 3 5 2) = (5, 2) ∧
    (placePath 3 5 2).length = 3 :=
  ⟨(c8_round_trip_addressing 3 5 2 (by decide) (by decide)).1,
   (c8_round_trip_addressing 3 5 2 (by decide) (by decide)).2.1⟩

/-! ## C10: nodes created by the walk are in range and marked wanted -/

@[simp] theorem lookupPath_nil (t : Option QuadNode) : lookupPath [] t = t := rfl

@[simp] theorem lookupPath_cons (i : Nat) (p : List Nat) (t : Option QuadNode) :
    lookupPath (i :: p) t = lookupPath p (childOpt t i) := rfl

@[simp] theorem childOpt_some (n : QuadNode) (i : Nat) :
    childOpt (some n) i = n.childAt i := rfl

@[simp] theorem childOpt_none (i : Nat) : childOpt none i = none := rfl

@[simp] theorem childAt_mk_nochildren (b : BBoxi) (t : Option Tile) (g i : Nat) :
    (QuadNode.mk b t none none none none g).childAt i = none := by
  rcases i with _ | _ | _ | i <;> rfl

/-- Inverting the entry step at an absent position: the node was created,
so the range check passed and the node is the fresh one for this box. -/
theorem visitEntry_some_of_none (env : WalkEnv) (level x y : Nat)
    (n0 : QuadNode) (hE : visitEntry env level x y none = some n0) :
    n0 = .mk (BBoxi.forGeoTile level x y) none none none none none 0 ∧
    env.dist (BBoxi.forGeoTile level x y) ≤ env.hiresRangeSq := by
  have hE' : (if env.hiresRangeSq < env.dist (BBoxi.forGeoTile level x y)
      then none
      else some (QuadNode.mk (BBoxi.forGeoTile level x y)
        none none none none none 0)) = some n0 := hE
  by_cases hd : env.hiresRangeSq < env.dist (BBoxi.forGeoTile level x y)
  · rw [if_pos hd] at hE'
    exact absurd hE' (by simp)
  · rw [if_neg hd] at hE'
    cases hE'
    exact ⟨rfl, Nat.le_of_not_lt hd⟩

/-- Inverting the entry step at an occupied position: the existing node is
kept and its stored box passed the range check. -/
theorem visitEntry_some_of_some (env : WalkEnv) (level x y : Nat)
    (m n0 : QuadNode) (hE : visitEntry env level x y (some m) = some n0) :
    n0 = m ∧ env.dist m.bbox ≤ env.hiresRangeSq := by
  have hE' : (if env.hiresRangeSq < env.dist m.bbox then none else some m)
      = some n0 := hE
  by_cases hd : env.hiresRangeSq < env.dist m.bbox
  · rw [if_pos hd] at hE'
    exact absurd hE' (by simp)
  · rw [if_neg hd] at hE'
    cases hE'
    exact ⟨rfl, Nat.le_of_not_lt hd⟩

/-- Any node present after a walk at a position that was absent before it
was created by this walk: its stored box is within `hiresRange` of the
viewer and it is stamped with the walk's current generation. -/
theorem recLoadTiles_new_nodes (env : WalkEnv) :
    ∀ (fuel x y : Nat) (pnode : Option QuadNode) (q : List TileTask)
      (info : RecLoadTilesInfo) (path : List Nat) (n : QuadNode),
    lookupPath path pnode = none →
    lookupPath path (recLoadTiles env fuel x y pnode q info).node = some n →
    env.dist n.bbox ≤ env.hiresRangeSq ∧ n.generation = env.generation := by
  intro fuel
  induction fuel with
  | zero =>
    intro x y pnode q info path n h1 h2
    cases hE : visitEntry env (env.hiresLevel - 0) x y pnode with
    | none =>
      rw [recLoadTiles_pruned env 0 x y pnode q info hE] at h2
      rw [h1] at h2
      exact absurd h2 (by simp)
    | some n0 =>
      rw [recLoadTiles_zero env x y n0 pnode q info hE, leafStep_node] at h2
      cases path with
      | nil =>
        cases pnode with
        | none =>
          obtain ⟨hn0, hd⟩ := visitEntry_some_of_none env _ x y n0 hE
          cases h2
          subst hn0
          refine ⟨by simpa using hd, by simp⟩
        | some m => exact absurd h1 (by simp)
      | cons i p =>
        cases pnode with
        | none =>
          obtain ⟨hn0, hd⟩ := visitEntry_some_of_none env _ x y n0 hE
          subst hn0
          simp at h2
        | some m =>
          obtain ⟨hn0, hd⟩ := visitEntry_some_of_some env _ x y m n0 hE
          subst hn0
          simp only [lookupPath_cons, childOpt_some,
            QuadNode.childAt_withGeneration] at h2
          simp only [lookupPath_cons, childOpt_some] at h1
          rw [h1] at h2
          exact absurd h2 (by simp)
  | succ f ih =>
    intro x y pnode q info path n h1 h2
    cases hE : visitEntry env (env.hiresLevel - (f + 1)) x y pnode with
    | none =>
      rw [recLoadTiles_pruned env (f + 1) x y pnode q info hE] at h2
      rw [h1] at h2
      exact absurd h2 (by simp)
    | some n0 =>
      rw [recLoadTiles_succ env f x y n0 pnode q info hE] at h2
      simp only at h2
      cases path with
      | nil =>
        cases pnode with
        | none =>
          obtain ⟨hn0, hd⟩ := visitEntry_some_of_none env _ x y n0 hE
          cases h2
          subst hn0
          constructor
          · simpa using hd
          · simp
        | some m => exact absurd h1 (by simp)
      | cons i p =>
        cases pnode with
        | none =>
          obtain ⟨hn0, _⟩ := visitEntry_some_of_none env _ x y n0 hE
          subst hn0
          rcases i with _ | _ | _ | i <;>
            simp only [lookupPath_cons, childOpt_some, QuadNode.withGeneration,
              QuadNode.withChildren, QuadNode.childAt, QuadNode.c0_mk,
              QuadNode.c1_mk, QuadNode.c2_mk, QuadNode.c3_mk] at h1 h2
          · exact ih (2 * x) (2 * y) none q info p n (lookupPath_none p) h2
          · exact ih (2 * x + 1) (2 * y) none _ _ p n (lookupPath_none p) h2
          · exact ih (2 * x) (2 * y + 1) none _ _ p n (lookupPath_none p) h2
          · exact ih (2 * x + 1) (2 * y + 1) none _ _ p n (lookupPath_none p) h2
        | some m =>
          obtain ⟨hn0, _⟩ := visitEntry_some_of_some env _ x y m n0 hE
          subst hn0
          obtain ⟨b, t, a0, a1, a2, a3, g0⟩ := n0
          rcases i with _ | _ | _ | i <;>
            simp only [lookupPath_cons, childOpt_some, QuadNode.withGeneration,
              QuadNode.withChildren, QuadNode.childAt, QuadNode.c0_mk,
              QuadNode.c1_mk, QuadNode.c2_mk, QuadNode.c3_mk] at h1 h2
          · exact ih (2 * x) (2 * y) a0 q info p n h1 h2
          · exact ih (2 * x + 1) (2 * y) a1 _ _ p n h1 h2
          · exact ih (2 * x) (2 * y + 1) a2 _ _ p n h1 h2
          · exact ih (2 * x + 1) (2 * y + 1) a3 _ _ p n h1 h2

/-- The walk never loses the root: called on a present node it returns a
present node (pruning keeps it, otherwise it is restamped in place). -/
theorem recLoadTiles_some_isSome (env : WalkEnv) (fuel x y : Nat)
    (n : QuadNode) (q : List TileTask) (info : RecLoadTilesInfo) :
    (recLoadTiles env fuel x y (some n) q info).node.isSome := by
  cases hE : visitEntry env (env.hiresLevel - fuel) x y (some n) with
  | none =>
    rw [recLoadTiles_pruned env fuel x y (some n) q info hE]
    rfl
  | some n0 =>
    cases fuel with
    | zero =>
      rw [recLoadTiles_zero env x y n0 (some n) q info hE, leafStep_node]
      rfl
    | succ f =>
      rw [recLoadTiles_succ env f x y n0 (some n) q info hE]
      rfl

/-- The viewer distance function that finds every box at distance 0. -/
def dist0 : BBoxi → Nat := fun _ => 0

/-- C10: every `QuadNode` the wanted-set walk allocates is allocated only
at a position whose box is within `hiresRange` of the viewer (the walk
returns before `new QuadNode` otherwise), and is stamped with the current
generation in the same visit; hence `LoadLocality` never leaves behind a
newly created node that it did not mark wanted: any node found after the
call at a position that held no node before it satisfies both. -/
theorem c10_created_nodes_in_range_and_marked (tm : TileManager)
    (dist : BBoxi → Nat) (sync : Bool) (path : List Nat) (n : QuadNode)
    (h1 : lookupPath path (some tm.root) = none)
    (h2 : lookupPath path (some (loadLocality tm dist sync).1.root) = some n) :
    dist n.bbox ≤ tm.hiresRangeSq ∧ n.generation = tm.generation := by
  have hsome := recLoadTiles_some_isSome (tm.walkEnv dist) tm.hiresLevel 0 0
    tm.root (if sync then tm.queue else []) ⟨0, 0⟩
  have hroot : (loadLocality tm dist sync).1.root
      = (recLoadTiles (tm.walkEnv dist) tm.hiresLevel 0 0 (some tm.root)
          (if sync then tm.queue else []) ⟨0, 0⟩).node.getD tm.root := rfl
  rw [hroot] at h2
  obtain ⟨rt, hrt⟩ := Option.isSome_iff_exists.mp hsome
  rw [hrt] at h2
  simp only [Option.getD_some] at h2
  have := recLoadTiles_new_nodes (tm.walkEnv dist) tm.hiresLevel 0 0
    (some tm.root) (if sync then tm.queue else []) ⟨0, 0⟩ path n h1
    (by rw [hrt]; exact h2)
  exact this

/-- A fresh one-level manager for the C10 witness. -/
def tmC10 : TileManager :=
  { root := .mk (BBoxi.forGeoTile 0 0 0) none none none none none 5,
    queue := [], generation := 5, loading := TileId.sentinel,
    hiresLevel := 1, hiresRangeSq := 0 }

/-- The node the C10 witness walk creates at child slot 0. -/
def nodeC10 : QuadNode :=
  .mk (BBoxi.forGeoTile 1 0 0) none none none none none 5

/-- Witness for C10: the walk on `tmC10` creates the leaf `(1,0,0)`; it is
within range (distance 0) and stamped with generation 5. -/
theorem c10_created_nodes_in_range_and_marked_witness :
    dist0 nodeC10.bbox ≤ tmC10.hiresRangeSq ∧
    nodeC10.generation = tmC10.generation :=
  c10_created_nodes_in_range_and_marked tmC10 dist0 false [0] nodeC10 rfl rfl

/-! ## C1: the enqueued set versus the spec's eligible set -/

theorem specEligibleIds_zero (env : WalkEnv) (x y : Nat)
    (node : Option QuadNode) :
    specEligibleIds env 0 x y node =
      if env.hiresRangeSq <
          env.dist (BBoxi.forGeoTile env.hiresLevel x y) then []
      else if (node.bind QuadNode.tile).isSome then []
      else if TileId.ofNat env.hiresLevel x y = env.loading then []
      else [TileId.ofNat env.hiresLevel x y] := by
  rw [specEligibleIds.eq_def]
  simp only [Nat.sub_zero]

theorem specEligibleIds_succ (env : WalkEnv) (f x y : Nat)
    (node : Option QuadNode) :
    specEligibleIds env (f + 1) x y node =
      if env.hiresRangeSq <
          env.dist (BBoxi.forGeoTile (env.hiresLevel - (f + 1)) x y) then []
      else
        specEligibleIds env f (2 * x) (2 * y) (childOpt node 0) ++
        specEligibleIds env f (2 * x + 1) (2 * y) (childOpt node 1) ++
        specEligibleIds env f (2 * x) (2 * y + 1) (childOpt node 2) ++
        specEligibleIds env f (2 * x + 1) (2 * y + 1) (childOpt node 3) := by
  rw [specEligibleIds.eq_def]

theorem wfAt_none (hl fuel x y : Nat) : wfAt hl fuel x y none = true := by
  rw [wfAt.eq_def]

theorem wfAt_some_zero (hl x y : Nat) (n : QuadNode) :
    wfAt hl 0 x y (some n) = true ↔
      n.bbox = BBoxi.forGeoTile hl x y := by
  rw [wfAt.eq_def]
  simp

theorem wfAt_some_succ (hl f x y : Nat) (n : QuadNode) :
    wfAt hl (f + 1) x y (some n) = true ↔
      (n.bbox = BBoxi.forGeoTile (hl - (f + 1)) x y ∧
       wfAt hl f (2 * x) (2 * y) n.c0 = true ∧
       wfAt hl f (2 * x + 1) (2 * y) n.c1 = true ∧
       wfAt hl f (2 * x) (2 * y + 1) n.c2 = true ∧
       wfAt hl f (2 * x + 1) (2 * y + 1) n.c3 = true) := by
  rw [wfAt.eq_def]
  simp [Bool.and_eq_true, and_assoc]


/-- Below the cap every candidate is admitted (front or back), and
`queue_size` counts the admission. -/
theorem admitTask_perm (t : TileTask) (d : Nat) (q : List TileTask)
    (info : RecLoadTilesInfo) (h : info.queue_size < 100) :
    ((admitTask t d q info).1).Perm (t :: q) ∧
    (admitTask t d q info).2.queue_size = info.queue_size + 1 := by
  unfold admitTask
  by_cases h1 : q.isEmpty
  · rw [if_pos h1]
    exact ⟨List.Perm.refl _, rfl⟩
  · rw [if_neg h1]
    by_cases h2 : d < info.closest_distance
    · rw [if_pos h2]
      exact ⟨List.Perm.refl _, rfl⟩
    · rw [if_neg h2, if_pos h]
      exact ⟨List.perm_append_singleton t q, rfl⟩

/-- Lemma `admitTask_perm`, phrased on id multisets. -/
theorem admitTask_multiset (t : TileTask) (d : Nat) (q : List TileTask)
    (info : RecLoadTilesInfo) (h : info.queue_size < 100) :
    ((List.map TileTask.id (admitTask t d q info).1 : Multiset TileId))
      = ↑[t.id] + ↑(List.map TileTask.id q) ∧
    (admitTask t d q info).2.queue_size
      = info.queue_size + [t.id].length := by
  obtain ⟨hperm, hsz⟩ := admitTask_perm t d q info h
  constructor
  · have hc := Multiset.coe_eq_coe.mpr (hperm.map TileTask.id)
    rw [hc]
    simp
  · simpa using hsz

/-- The wanted-set walk refines the spec's eligible set: as long as at
most 100 candidates are eligible in the walked subtree (so the back-queue
cap never bites), the tasks the walk enqueues are, as a multiset, exactly
the eligible leaf ids, and `queue_size` grows by exactly their number. -/
theorem recLoadTiles_admits (env : WalkEnv) :
    ∀ (fuel x y : Nat) (pnode : Option QuadNode) (q : List TileTask)
      (info : RecLoadTilesInfo),
    wfAt env.hiresLevel fuel x y pnode = true →
    info.queue_size + (specEligibleIds env fuel x y pnode).length ≤ 100 →
    (((recLoadTiles env fuel x y pnode q info).queue.map TileTask.id :
        Multiset TileId)
      = ↑(specEligibleIds env fuel x y pnode) + ↑(q.map TileTask.id)) ∧
    (recLoadTiles env fuel x y pnode q info).info.queue_size
      = info.queue_size + (specEligibleIds env fuel x y pnode).length := by
  intro fuel
  induction fuel with
  | zero =>
    intro x y pnode q info hwf hcap
    rw [specEligibleIds_zero] at hcap ⊢
    by_cases hd : env.hiresRangeSq <
        env.dist (BBoxi.forGeoTile env.hiresLevel x y)
    · rw [if_pos hd] at hcap ⊢
      have hE : visitEntry env env.hiresLevel x y pnode = none := by
        cases pnode with
        | none =>
          show (if env.hiresRangeSq <
              env.dist (BBoxi.forGeoTile env.hiresLevel x y) then none
            else some (QuadNode.mk (BBoxi.forGeoTile env.hiresLevel x y)
              none none none none none 0)) = none
          rw [if_pos hd]
        | some n =>
          have hb := (wfAt_some_zero env.hiresLevel x y n).mp hwf
          show (if env.hiresRangeSq < env.dist n.bbox then none
            else some n) = none
          rw [hb, if_pos hd]
      rw [recLoadTiles_pruned env 0 x y pnode q info hE]
      simp
    · rw [if_neg hd] at hcap ⊢
      cases pnode with
      | none =>
        have hE : visitEntry env env.hiresLevel x y none =
            some (QuadNode.mk (BBoxi.forGeoTile env.hiresLevel x y)
              none none none none none 0) := by
          show (if env.hiresRangeSq <
              env.dist (BBoxi.forGeoTile env.hiresLevel x y) then none
            else some (QuadNode.mk (BBoxi.forGeoTile env.hiresLevel x y)
              none none none none none 0)) = _
          rw [if_neg hd]
        rw [recLoadTiles_zero env x y _ none q info hE]
        unfold leafStep
        simp only [QuadNode.withGeneration, QuadNode.tile_mk,
          QuadNode.bbox_mk, Option.none_bind, Option.isSome_none,
          Bool.false_eq_true, if_false] at hcap ⊢
        by_cases hload : TileId.ofNat env.hiresLevel x y = env.loading
        · simp only [if_pos hload] at hcap ⊢
          simp
        · simp only [if_neg hload] at hcap ⊢
          have hsize : info.queue_size < 100 := by
            simp only [List.length_cons, List.length_nil] at hcap
            omega
          obtain ⟨hm, hs⟩ := admitTask_multiset
            ⟨TileId.ofNat env.hiresLevel x y,
              BBoxi.forGeoTile env.hiresLevel x y⟩
            (env.dist (BBoxi.forGeoTile env.hiresLevel x y)) q info hsize
          exact ⟨by simpa using hm, by simpa using hs⟩
      | some n =>
        have hb := (wfAt_some_zero env.hiresLevel x y n).mp hwf
        have hE : visitEntry env env.hiresLevel x y (some n) = some n := by
          show (if env.hiresRangeSq < env.dist n.bbox then none
            else some n) = some n
          rw [hb, if_neg hd]
        rw [recLoadTiles_zero env x y n (some n) q info hE]
        unfold leafStep
        simp only [QuadNode.tile_withGeneration, Option.some_bind] at hcap ⊢
        by_cases ht : n.tile.isSome = true
        · simp only [if_pos ht] at hcap ⊢
          simp
        · simp only [if_neg ht] at hcap ⊢
          by_cases hload : TileId.ofNat env.hiresLevel x y = env.loading
          · simp only [if_pos hload] at hcap ⊢
            simp
          · simp only [if_neg hload] at hcap ⊢
            have hsize : info.queue_size < 100 := by
              simp only [List.length_cons, List.length_nil] at hcap
              omega
            obtain ⟨hm, hs⟩ := admitTask_multiset
              ⟨TileId.ofNat env.hiresLevel x y,
                (n.withGeneration env.generation).bbox⟩
              (env.dist (n.withGeneration env.generation).bbox) q info hsize
            exact ⟨by simpa using hm, by simpa using hs⟩
  | succ f ih =>
    intro x y pnode q info hwf hcap
    rw [specEligibleIds_succ] at hcap ⊢
    by_cases hd : env.hiresRangeSq <
        env.dist (BBoxi.forGeoTile (env.hiresLevel - (f + 1)) x y)
    · rw [if_pos hd] at hcap ⊢
      have hE : visitEntry env (env.hiresLevel - (f + 1)) x y pnode = none := by
        cases pnode with
        | none =>
          show (if env.hiresRangeSq <
              env.dist (BBoxi.forGeoTile (env.hiresLevel - (f + 1)) x y)
            then none
            else some (QuadNode.mk
              (BBoxi.forGeoTile (env.hiresLevel - (f + 1)) x y)
              none none none none none 0)) = none
          rw [if_pos hd]
        | some n =>
          have hb := ((wfAt_some_succ env.hiresLevel f x y n).mp hwf).1
          show (if env.hiresRangeSq < env.dist n.bbox then none
            else some n) = none
          rw [hb, if_pos hd]
      rw [recLoadTiles_pruned env (f + 1) x y pnode q info hE]
      simp
    · rw [if_neg hd] at hcap ⊢
      cases pnode with
      | none =>
        have hE : visitEntry env (env.hiresLevel - (f + 1)) x y none =
            some (QuadNode.mk (BBoxi.forGeoTile (env.hiresLevel - (f + 1)) x y)
              none none none none none 0) := by
          show (if env.hiresRangeSq <
              env.dist (BBoxi.forGeoTile (env.hiresLevel - (f + 1)) x y)
            then none
            else some (QuadNode.mk
              (BBoxi.forGeoTile (env.hiresLevel - (f + 1)) x y)
              none none none none none 0)) = _
          rw [if_neg hd]
        rw [recLoadTiles_succ env f x y _ none q info hE]
        simp only [QuadNode.withGeneration, QuadNode.c0_mk, QuadNode.c1_mk,
          QuadNode.c2_mk, QuadNode.c3_mk, childOpt_none,
          List.length_append] at hcap ⊢
        obtain ⟨hp0, hs0⟩ := ih (2 * x) (2 * y) none q info
          (wfAt_none _ _ _ _) (by omega)
        obtain ⟨hp1, hs1⟩ := ih (2 * x + 1) (2 * y) none
          (recLoadTiles env f (2 * x) (2 * y) none q info).queue
          (recLoadTiles env f (2 * x) (2 * y) none q info).info
          (wfAt_none _ _ _ _) (by rw [hs0]; omega)
        obtain ⟨hp2, hs2⟩ := ih (2 * x) (2 * y + 1) none
          (recLoadTiles env f (2 * x + 1) (2 * y) none
            (recLoadTiles env f (2 * x) (2 * y) none q info).queue
            (recLoadTiles env f (2 * x) (2 * y) none q info).info).queue
          (recLoadTiles env f (2 * x + 1) (2 * y) none
            (recLoadTiles env f (2 * x) (2 * y) none q info).queue
            (recLoadTiles env f (2 * x) (2 * y) none q info).info).info
          (wfAt_none _ _ _ _) (by rw [hs1, hs0]; omega)
        obtain ⟨hp3, hs3⟩ := ih (2 * x + 1) (2 * y + 1) none
          (recLoadTiles env f (2 * x) (2 * y + 1) _ _ _).queue
          (recLoadTiles env f (2 * x) (2 * y + 1)
            (by exact none)
            (recLoadTiles env f (2 * x + 1) (2 * y) none
              (recLoadTiles env f (2 * x) (2 * y) none q info).queue
              (recLoadTiles env f (2 * x) (2 * y) none q info).info).queue
            (recLoadTiles env f (2 * x + 1) (2 * y) none
              (recLoadTiles env f (2 * x) (2 * y) none q info).queue
              (recLoadTiles env f (2 * x) (2 * y) none q info).info).info).info
          (wfAt_none _ _ _ _) (by rw [hs2, hs1, hs0]; omega)
        constructor
        · rw [hp3, hp2, hp1, hp0]
          simp only [← Multiset.coe_add]
          simp only [add_comm, add_left_comm, add_assoc]
        · rw [hs3, hs2, hs1, hs0]
          omega
      | some n =>
        obtain ⟨hb, hw0, hw1, hw2, hw3⟩ :=
          (wfAt_some_succ env.hiresLevel f x y n).mp hwf
        have hE : visitEntry env (env.hiresLevel - (f + 1)) x y (some n) =
            some n := by
          show (if env.hiresRangeSq < env.dist n.bbox then none
            else some n) = some n
          rw [hb, if_neg hd]
        rw [recLoadTiles_succ env f x y n (some n) q info hE]
        obtain ⟨b, t, a0, a1, a2, a3, g0⟩ := n
        simp only [QuadNode.withGeneration, QuadNode.c0_mk, QuadNode.c1_mk,
          QuadNode.c2_mk, QuadNode.c3_mk] at hw0 hw1 hw2 hw3
        simp only [QuadNode.withGeneration, QuadNode.c0_mk, QuadNode.c1_mk,
          QuadNode.c2_mk, QuadNode.c3_mk, childOpt_some, QuadNode.childAt,
          List.length_append] at hcap ⊢
        obtain ⟨hp0, hs0⟩ := ih (2 * x) (2 * y) a0 q info hw0 (by omega)
        obtain ⟨hp1, hs1⟩ := ih (2 * x + 1) (2 * y) a1
          (recLoadTiles env f (2 * x) (2 * y) a0 q info).queue
          (recLoadTiles env f (2 * x) (2 * y) a0 q info).info
          hw1 (by rw [hs0]; omega)
        obtain ⟨hp2, hs2⟩ := ih (2 * x) (2 * y + 1) a2
          (recLoadTiles env f (2 * x + 1) (2 * y) a1
            (recLoadTiles env f (2 * x) (2 * y) a0 q info).queue
            (recLoadTiles env f (2 * x) (2 * y) a0 q info).info).queue
          (recLoadTiles env f (2 * x + 1) (2 * y) a1
            (recLoadTiles env f (2 * x) (2 * y) a0 q info).queue
            (recLoadTiles env f (2 * x) (2 * y) a0 q info).info).info
          hw2 (by rw [hs1, hs0]; omega)
        obtain ⟨hp3, hs3⟩ := ih (2 * x + 1) (2 * y + 1) a3
          (recLoadTiles env f (2 * x) (2 * y + 1) a2
            (recLoadTiles env f (2 * x + 1) (2 * y) a1
              (recLoadTiles env f (2 * x) (2 * y) a0 q info).queue
              (recLoadTiles env f (2 * x) (2 * y) a0 q info).info).queue
            (recLoadTiles env f (2 * x + 1) (2 * y) a1
              (recLoadTiles env f (2 * x) (2 * y) a0 q info).queue
              (recLoadTiles env f (2 * x) (2 * y) a0 q info).info).info).queue
          (recLoadTiles env f (2 * x) (2 * y + 1) a2
            (recLoadTiles env f (2 * x + 1) (2 * y) a1
              (recLoadTiles env f (2 * x) (2 * y) a0 q info).queue
              (recLoadTiles env f (2 * x) (2 * y) a0 q info).info).queue
            (recLoadTiles env f (2 * x + 1) (2 * y) a1
              (recLoadTiles env f (2 * x) (2 * y) a0 q info).queue
              (recLoadTiles env f (2 * x) (2 * y) a0 q info).info).info).info
          hw3 (by rw [hs2, hs1, hs0]; omega)
        constructor
        · rw [hp3, hp2, hp1, hp0]
          simp only [← Multiset.coe_add]
          simp only [add_comm, add_left_comm, add_assoc]
        · rw [hs3, hs2, hs1, hs0]
          omega

/-- The walk preserves well-formedness: stamping does not change boxes,
and a created node stores the geo box of its own position. -/
theorem recLoadTiles_preserves_wf (env : WalkEnv) :
    ∀ (fuel x y : Nat) (pnode : Option QuadNode) (q : List TileTask)
      (info : RecLoadTilesInfo),
    wfAt env.hiresLevel fuel x y pnode = true →
    wfAt env.hiresLevel fuel x y
      (recLoadTiles env fuel x y pnode q info).node = true := by
  intro fuel
  induction fuel with
  | zero =>
    intro x y pnode q info hwf
    cases hE : visitEntry env env.hiresLevel x y pnode with
    | none =>
      rw [recLoadTiles_pruned env 0 x y pnode q info hE]
      exact hwf
    | some n0 =>
      rw [recLoadTiles_zero env x y n0 pnode q info hE, leafStep_node,
        wfAt_some_zero]
      cases pnode with
      | none =>
        obtain ⟨hn0, _⟩ := visitEntry_some_of_none env _ x y n0 hE
        subst hn0
        simp
      | some n =>
        obtain ⟨hn0, _⟩ := visitEntry_some_of_some env _ x y n n0 hE
        subst hn0
        rw [QuadNode.bbox_withGeneration]
        exact (wfAt_some_zero env.hiresLevel x y n0).mp hwf
  | succ f ih =>
    intro x y pnode q info hwf
    cases hE : visitEntry env (env.hiresLevel - (f + 1)) x y pnode with
    | none =>
      rw [recLoadTiles_pruned env (f + 1) x y pnode q info hE]
      exact hwf
    | some n0 =>
      rw [recLoadTiles_succ env f x y n0 pnode q info hE]
      cases pnode with
      | none =>
        obtain ⟨hn0, _⟩ := visitEntry_some_of_none env _ x y n0 hE
        subst hn0
        simp only [QuadNode.withGeneration, QuadNode.c0_mk, QuadNode.c1_mk,
          QuadNode.c2_mk, QuadNode.c3_mk, QuadNode.withChildren]
        rw [wfAt_some_succ]
        refine ⟨by simp, ?_, ?_, ?_, ?_⟩ <;>
          simp only [QuadNode.c0_mk, QuadNode.c1_mk, QuadNode.c2_mk,
            QuadNode.c3_mk]
        · exact ih (2 * x) (2 * y) none q info (wfAt_none _ _ _ _)
        · exact ih (2 * x + 1) (2 * y) none _ _ (wfAt_none _ _ _ _)
        · exact ih (2 * x) (2 * y + 1) none _ _ (wfAt_none _ _ _ _)
        · exact ih (2 * x + 1) (2 * y + 1) none _ _ (wfAt_none _ _ _ _)
      | some n =>
        obtain ⟨hn0, _⟩ := visitEntry_some_of_some env _ x y n n0 hE
        subst hn0
        obtain ⟨hb, hw0, hw1, hw2, hw3⟩ :=
          (wfAt_some_succ env.hiresLevel f x y n0).mp hwf
        obtain ⟨b, t, a0, a1, a2, a3, g0⟩ := n0
        simp only [QuadNode.withGeneration, QuadNode.c0_mk, QuadNode.c1_mk,
          QuadNode.c2_mk, QuadNode.c3_mk, QuadNode.withChildren] at hb ⊢
        rw [wfAt_some_succ]
        refine ⟨by simpa using hb, ?_, ?_, ?_, ?_⟩ <;>
          simp only [QuadNode.c0_mk, QuadNode.c1_mk, QuadNode.c2_mk,
            QuadNode.c3_mk]
        · exact ih (2 * x) (2 * y) a0 q info hw0
        · exact ih (2 * x + 1) (2 * y) a1 _ _ hw1
        · exact ih (2 * x) (2 * y + 1) a2 _ _ hw2
        · exact ih (2 * x + 1) (2 * y + 1) a3 _ _ hw3

/-- Operation `LoadLocality` preserves well-formedness of the manager's tree. -/
theorem loadLocality_preserves_wf (tm : TileManager) (dist : BBoxi → Nat)
    (sync : Bool) (h : tm.wf = true) :
    ((loadLocality tm dist sync).1).wf = true := by
  have hsome := recLoadTiles_some_isSome (tm.walkEnv dist) tm.hiresLevel 0 0
    tm.root (if sync then tm.queue else []) ⟨0, 0⟩
  obtain ⟨rt, hrt⟩ := Option.isSome_iff_exists.mp hsome
  have hwp := recLoadTiles_preserves_wf (tm.walkEnv dist) tm.hiresLevel 0 0
    (some tm.root) (if sync then tm.queue else []) ⟨0, 0⟩ h
  show wfAt tm.hiresLevel tm.hiresLevel 0 0
    (some ((recLoadTiles (tm.walkEnv dist) tm.hiresLevel 0 0 (some tm.root)
      (if sync then tm.queue else []) ⟨0, 0⟩).node.getD tm.root)) = true
  rw [hrt] at hwp ⊢
  simpa using hwp

/-- Every state in a sequence of non-`SYNC` `LoadLocality` calls has a
well-formed tree. -/
theorem locSeq_wf (tm : TileManager) (dist : BBoxi → Nat)
    (h : tm.wf = true) : ∀ n, (locSeq tm dist n).wf = true := by
  intro n
  induction n with
  | zero => exact h
  | succ n ihn => exact loadLocality_preserves_wf _ dist false ihn

/-- The distance function placing every box far out of range of nothing:
all boxes at distance 0 is `dist0`; `tmBig` is a fresh manager whose
hires leaves are at level 4, so all 256 leaves are eligible under
`dist0`. -/
def tmBig : TileManager :=
  { root := .mk (BBoxi.forGeoTile 0 0 0) none none none none none 0,
    queue := [], generation := 3, loading := TileId.sentinel,
    hiresLevel := 4, hiresRangeSq := 100000000 }

set_option maxRecDepth 100000 in
/-- C1 counterexample: with every box at distance 0 all 256 level-4
leaves are within `hiresRange`, hold no tile and are not loading — yet
the walk enqueues only 100 of them, because once 100 tasks have been
enqueued every further non-closer candidate is dropped by the admission
cap (line 121).  Leaf `(4,15,15)` is eligible but never enqueued, so the
enqueued set is *not* exactly the eligible set. -/
theorem c1_counterexample :
    (⟨4, 15, 15⟩ : TileId) ∈ tmBig.eligibleIds dist0 ∧
    (⟨4, 15, 15⟩ : TileId) ∉ tmBig.enqueuedIds dist0 := by
  constructor
  · decide
  · decide

/-- C1 amended: for every sequence of non-`SYNC` `LoadLocality` calls
with a fixed viewer position, starting from a well-formed tree, the
multiset of leaf `TileId`s each call leaves on the (cleared) queue is
exactly the eligible set — the level-`hires_level_` tiles whose ancestor
chain (and own box) lies within `hiresRange` of the viewer, whose node
does not already hold a tile payload, and whose id is not the one
recorded as loading — *provided at most 100 tiles are eligible at that
call*; beyond 100 the admission cap drops the excess non-closer
candidates (see the counterexample). -/
theorem c1_enqueued_exactly_eligible (tm : TileManager) (dist : BBoxi → Nat)
    (k : Nat) (hwf : tm.wf = true)
    (hcap : ((locSeq tm dist k).eligibleIds dist).length ≤ 100) :
    ((locSeq tm dist k).enqueuedIds dist).Perm
      ((locSeq tm dist k).eligibleIds dist) := by
  have hswf : (locSeq tm dist k).wf = true := locSeq_wf tm dist hwf k
  obtain ⟨hm, _⟩ := recLoadTiles_admits ((locSeq tm dist k).walkEnv dist)
    (locSeq tm dist k).hiresLevel 0 0 (some (locSeq tm dist k).root) [] ⟨0, 0⟩
    hswf
    (by show 0 + ((locSeq tm dist k).eligibleIds dist).length ≤ 100; omega)
  have h2 : (((loadLocality (locSeq tm dist k) dist false).1.queue.map
        TileTask.id : List TileId) : Multiset TileId)
      = ↑((locSeq tm dist k).eligibleIds dist) := by
    show ((recLoadTiles ((locSeq tm dist k).walkEnv dist)
        (locSeq tm dist k).hiresLevel 0 0 (some (locSeq tm dist k).root) []
        ⟨0, 0⟩).queue.map TileTask.id : Multiset TileId) = _
    simpa using hm
  exact Multiset.coe_eq_coe.mp h2

/-- A fresh manager whose single hires leaf is the root itself. -/
def tmTiny : TileManager :=
  { root := .mk (BBoxi.forGeoTile 0 0 0) none none none none none 0,
    queue := [], generation := 0, loading := TileId.sentinel,
    hiresLevel := 0, hiresRangeSq := 0 }

/-- Witness for C1: on `tmTiny` (one eligible leaf) the very first call
enqueues exactly the eligible set. -/
theorem c1_enqueued_exactly_eligible_witness :
    tmTiny.wf = true ∧
    ((locSeq tmTiny dist0 0).eligibleIds dist0).length ≤ 100 ∧
    ((locSeq tmTiny dist0 0).enqueuedIds dist0).Perm
      ((locSeq tmTiny dist0 0).eligibleIds dist0) :=
  ⟨by decide, by decide,
    c1_enqueued_exactly_eligible tmTiny dist0 0 (by decide) (by decide)⟩
